import Mathlib

/-!
Shallow embedding of the stamp-cli template instantiation pipeline from
src/main.rs: manifest validation, answer collection, execution planning with
per-component path rendering, conflict resolution with the three strategies,
and sequential execution. Filesystem paths are modelled as lists of
components, the tera engine as an abstract rendering function closed over
the context of the run, and the filesystem as explicit maps plus fallible
operation oracles. All definitions follow the source; the few definitions
that instead follow the wording of the specification are marked as such in
their doc comments and exist only to be compared with the source-derived
ones.
-/

namespace Stamp

/-- A filesystem path, modelled as its list of components. -/
abbrev Path := List String

/-- Boolean test that the first character list is a prefix of the second. -/
def isPrefixB : List Char → List Char → Bool
  | [], _ => true
  | _ :: _, [] => false
  | a :: as, b :: bs => a == b && isPrefixB as bs

/-- Boolean substring test on character lists. -/
def hasSubB (pat : List Char) : List Char → Bool
  | [] => pat.isEmpty
  | c :: rest => isPrefixB pat (c :: rest) || hasSubB pat rest

/-- Rust str::contains for literal patterns. -/
def strContains (s pat : String) : Bool := hasSubB pat.data s.data

/-- Rust str::ends_with for literal patterns. -/
def strEndsWith (s pat : String) : Bool := isPrefixB pat.data.reverse s.data.reverse

/-- Rust str::starts_with for literal patterns. -/
def strStartsWith (s pat : String) : Bool := isPrefixB pat.data s.data

/-- Fuelled helper for strRemoveAll: removes each leftmost nonoverlapping
occurrence of pat while walking the list; the fuel is the length of the
input, enough since each step consumes at least one character. -/
def removeAllFuel (pat : List Char) : Nat → List Char → List Char
  | 0, s => s
  | _ + 1, [] => []
  | fuel + 1, c :: rest =>
    if !pat.isEmpty && isPrefixB pat (c :: rest) then
      removeAllFuel pat fuel (rest.drop (pat.length - 1))
    else
      c :: removeAllFuel pat fuel rest

/-- Rust str::replace of pat by the empty string: every leftmost
nonoverlapping occurrence of pat is removed. -/
def strRemoveAll (s pat : String) : String := ⟨removeAllFuel pat.data s.data.length s.data⟩

/-- Rust PathBuf::file_name, modelled as the last component of the path, or
the empty string when there is none (mirroring unwrap_or_default). -/
def fileName (p : Path) : String := p.getLast?.getD ""

/-- Rust PathBuf::set_file_name: replace the last component. -/
def setFileName (p : Path) (name : String) : Path := p.dropLast ++ [name]

/-- Template marker detection from main.rs: the file name ends with the
marker extension .tera or contains .tera. as an inner extension. -/
def isTeraName (name : String) : Bool :=
  strEndsWith name ".tera" || strContains name ".tera."

/-- Marker stripping from main.rs: str::replace of .tera by the empty
string, which removes every occurrence of the marker. -/
def stripTera (name : String) : String := strRemoveAll name ".tera"

/-- The tera engine together with the context of the run, abstracted as a
function from an input string to either its rendering or a tera error. The
tera crate is an external collaborator of the pipeline, so its evaluation
is not modelled further; autoescaping is disabled in the source, so no
escaping function appears here either. -/
abbrev Renderer := String → Except String String

/-- Per-component path rendering from main.rs: each component is rendered
independently and the results are rejoined; as in the try_fold of the
source, the first failing component aborts the fold and the error carries
that literal unrendered component. -/
def renderComponents (render : Renderer) : List String → Except String (List String)
  | [] => .ok []
  | c :: rest =>
    match render c with
    | .error _ => .error c
    | .ok r =>
      match renderComponents render rest with
      | .error c2 => .error c2
      | .ok rs => .ok (r :: rs)

/-- Errors surfaced by the pipeline, each constructor carrying the data the
source program reports for that failure class. -/
inductive Err where
  | validation (errors : List String)
  | conflict (destinations : List Path)
  | pathRender (component : String) (original : Path)
  | contentRender (message : String)
  | fsErr (message : String)
deriving DecidableEq, Repr

/-- A planned file operation, as in main.rs. -/
structure FileAction where
  source : Path
  destination : Path
  is_tera : Bool
deriving DecidableEq, Repr

/-- Planning of one file from main.rs: join the path relative to the
template root under the destination root, render every component of the
joined path, then detect the template marker on the source file name and
strip it from the rendered destination file name. -/
def planFile (render : Renderer) (destRoot rel : Path) : Except Err FileAction :=
  let origOutput := destRoot ++ rel
  match renderComponents render origOutput with
  | .error c => .error (.pathRender c origOutput)
  | .ok outputPath =>
    let t := isTeraName (fileName rel)
    let finalOutput :=
      if t then setFileName outputPath (stripTera (fileName outputPath)) else outputPath
    .ok { source := rel, destination := finalOutput, is_tera := t }

/-- The planning walk from main.rs: the template tree is given as the list
of its files in traversal order, each as a path relative to the template
root; files named stamp.toml are skipped, every other file is planned. -/
def plan (render : Renderer) (destRoot : Path) : List Path → Except Err (List FileAction)
  | [] => .ok []
  | rel :: rest =>
    if fileName rel = "stamp.toml" then plan render destRoot rest
    else
      match planFile render destRoot rel with
      | .error e => .error e
      | .ok a =>
        match plan render destRoot rest with
        | .error e => .error e
        | .ok as => .ok (a :: as)

/-- The three conflict strategies of main.rs. -/
inductive ConflictStrategy where
  | Fail
  | Overwrite
  | Skip
deriving DecidableEq, Repr

/-- Conflict resolution from main.rs, with the pre-existing destination
filesystem abstracted as an existence predicate: Fail collects every
destination that exists and aborts when any is found, Skip retains only
actions whose destination does not exist, Overwrite keeps everything. -/
def resolveConflicts (strategy : ConflictStrategy) (exists_ : Path → Bool)
    (actions : List FileAction) : Except Err (List FileAction) :=
  match strategy with
  | .Fail =>
    let conflicts := (actions.filter fun a => exists_ a.destination).map fun a => a.destination
    if conflicts.isEmpty then .ok actions else .error (.conflict conflicts)
  | .Skip => .ok (actions.filter fun a => !exists_ a.destination)
  | .Overwrite => .ok actions

/-- The destination filesystem contents: the bytes stored at each path, if
any. -/
abbrev DestFS := Path → Option String

/-- A successful write of bytes at a path. -/
def fsWrite (fs : DestFS) (p : Path) (bytes : String) : DestFS :=
  fun q => if q = p then some bytes else fs q

/-- The fallible filesystem operations the executor performs, abstracted as
oracles; sourceBytes gives the bytes of a source file, used to state what a
successful fs::copy places at the destination. -/
structure FsOps where
  createDirAll : Path → Except String Unit
  readFile : Path → Except String String
  writeFile : Path → String → Except String Unit
  copyFile : Path → Path → Except String Unit
  sourceBytes : Path → String

/-- One executor step from main.rs: create the parent directories of the
destination, then render the source through tera and write the result for a
template file, or copy the source bytes verbatim otherwise. Each failing
operation aborts the step with the error of that operation. -/
def executeAction (render : Renderer) (ops : FsOps) (fs : DestFS) (a : FileAction) :
    Except Err DestFS :=
  match ops.createDirAll a.destination.dropLast with
  | .error e => .error (.fsErr e)
  | .ok _ =>
    if a.is_tera then
      match ops.readFile a.source with
      | .error e => .error (.fsErr e)
      | .ok contents =>
        match render contents with
        | .error e => .error (.contentRender e)
        | .ok rendered =>
          match ops.writeFile a.destination rendered with
          | .error e => .error (.fsErr e)
          | .ok _ => .ok (fsWrite fs a.destination rendered)
    else
      match ops.copyFile a.source a.destination with
      | .error e => .error (.fsErr e)
      | .ok _ => .ok (fsWrite fs a.destination (ops.sourceBytes a.source))

/-- The executor loop from main.rs: actions run in order; the first failure
stops the loop, leaving the filesystem as already written and reporting the
error of the failing step. -/
def execute (render : Renderer) (ops : FsOps) : DestFS → List FileAction → DestFS × Option Err
  | fs, [] => (fs, none)
  | fs, a :: rest =>
    match executeAction render ops fs a with
    | .error e => (fs, some e)
    | .ok fs2 => execute render ops fs2 rest

/-- The question kinds of the manifest. -/
inductive QuestionType where
  | string
  | select
  | multiSelect
  | bool
deriving DecidableEq, Repr

/-- A toml value as used by question defaults. -/
inductive TomlValue where
  | str (s : String)
  | boolean (b : Bool)
  | other
deriving DecidableEq, Repr

/-- One choice of a multi-select question. -/
structure MultiChoice where
  id : String
  prompt : String
  default : Bool
deriving DecidableEq, Repr

/-- A manifest question, with the kind-specific optional fields exactly as
deserialized in main.rs. -/
structure Question where
  id : String
  kind : QuestionType
  prompt : String
  default : Option TomlValue
  options : Option (List String)
  choices : Option (List MultiChoice)
deriving DecidableEq, Repr

/-- The derived Debug rendering of a question kind, as interpolated into
validation messages by main.rs. -/
def kindDebug : QuestionType → String
  | .string => "String"
  | .select => "Select"
  | .multiSelect => "MultiSelect"
  | .bool => "Bool"

/-- Validation message for a question having both options and choices. -/
def bothErr (id : String) : String :=
  "Question \x27" ++ id ++ "\x27 cannot have both \x27options\x27 and \x27choices\x27"

/-- Validation message for a select question lacking options. -/
def selectMissingErr (id : String) : String :=
  "Question \x27" ++ id ++ "\x27 of type \x27select\x27 must have \x27options\x27"

/-- Validation message for a select question having choices. -/
def selectChoicesErr (id : String) : String :=
  "Question \x27" ++ id ++ "\x27 of type \x27select\x27 cannot have \x27choices\x27"

/-- Validation message for a multi-select question lacking choices. -/
def multiMissingErr (id : String) : String :=
  "Question \x27" ++ id ++ "\x27 of type \x27multi-select\x27 must have \x27choices\x27"

/-- Validation message for a multi-select question having options. -/
def multiOptionsErr (id : String) : String :=
  "Question \x27" ++ id ++ "\x27 of type \x27multi-select\x27 cannot have \x27options\x27"

/-- Validation message for a string or bool question having options. -/
def plainOptionsErr (id kind : String) : String :=
  "Question \x27" ++ id ++ "\x27 of type \x27" ++ kind ++ "\x27 cannot have \x27options\x27"

/-- Validation message for a string or bool question having choices. -/
def plainChoicesErr (id kind : String) : String :=
  "Question \x27" ++ id ++ "\x27 of type \x27" ++ kind ++ "\x27 cannot have \x27choices\x27"

/-- Validation of one question from main.rs, producing its violations in
the order the source pushes them. -/
def validateQuestion (q : Question) : List String :=
  (if q.options.isSome && q.choices.isSome then [bothErr q.id] else [])
    ++ match q.kind with
       | .select =>
         (if q.options.isNone then [selectMissingErr q.id] else [])
           ++ (if q.choices.isSome then [selectChoicesErr q.id] else [])
       | .multiSelect =>
         (if q.choices.isNone then [multiMissingErr q.id] else [])
           ++ (if q.options.isSome then [multiOptionsErr q.id] else [])
       | .string =>
         (if q.options.isSome then [plainOptionsErr q.id (kindDebug .string)] else [])
           ++ (if q.choices.isSome then [plainChoicesErr q.id (kindDebug .string)] else [])
       | .bool =>
         (if q.options.isSome then [plainOptionsErr q.id (kindDebug .bool)] else [])
           ++ (if q.choices.isSome then [plainChoicesErr q.id (kindDebug .bool)] else [])

/-- Validation of a whole manifest from main.rs: the violations of every
question, accumulated in order with no short-circuiting. -/
def validateConfig : List Question → List String
  | [] => []
  | q :: rest => validateQuestion q ++ validateConfig rest

/-- A context value, as inserted into the tera context by main.rs. -/
inductive Value where
  | str (s : String)
  | boolean (b : Bool)
  | strList (l : List String)
deriving DecidableEq, Repr

/-- The interactive prompt collaborator, abstracted as oracles giving the
answer the user supplies to each question: the entered string, the
confirmed bool, the chosen index of a select, and the membership of each
choice index in the selection of a multi-select. -/
structure Answers where
  stringAns : String → String
  boolAns : String → Bool
  selectAns : String → Nat
  multiSel : String → Nat → Bool

/-- The context insertions produced for one question by the prompt loop of
main.rs: a string or bool answer is inserted under the question id; a
select question with options present inserts the chosen option; a
multi-select question with choices present inserts one boolean per choice
id followed by the list of selected choice ids under the question id; the
silent fall-through branches insert nothing. -/
def answerQuestion (ans : Answers) (q : Question) : List (String × Value) :=
  match q.kind with
  | .string => [(q.id, Value.str (ans.stringAns q.id))]
  | .bool => [(q.id, Value.boolean (ans.boolAns q.id))]
  | .select =>
    match q.options with
    | none => []
    | some opts => [(q.id, Value.str (opts.getD (ans.selectAns q.id) ""))]
  | .multiSelect =>
    match q.choices with
    | none => []
    | some cs =>
      (cs.enum.map fun ic => ((ic.2).id, Value.boolean (ans.multiSel q.id ic.1)))
        ++ [(q.id, Value.strList
              ((cs.enum.filter fun ic => ans.multiSel q.id ic.1).map fun ic => (ic.2).id))]

/-- The whole prompt loop of main.rs: context insertions of every question
in manifest order. -/
def collectAnswers (ans : Answers) : List Question → List (String × Value)
  | [] => []
  | q :: rest => answerQuestion ans q ++ collectAnswers ans rest

/-- The string form of a relative path as compared against the literal
interpolation delimiters by the early conflict pre-check of main.rs. -/
def relString (p : Path) : String := String.intercalate "/" p

/-- The destination path the early conflict pre-check of main.rs computes
for a file: the relative path joined under the destination root without any
rendering, with the marker stripped from the file name when the source
name carries the marker. -/
def earlyOutputPath (destRoot rel : Path) : Path :=
  let out := destRoot ++ rel
  if isTeraName (fileName rel) then setFileName out (stripTera (fileName out)) else out

/-- The early conflict pre-check of main.rs, run only under the Fail
strategy: it skips the manifest file and every relative path containing the
literal interpolation delimiters, joins the rest under the destination root
without rendering, and collects those whose computed destination exists. -/
def earlyConflicts (exists_ : Path → Bool) (destRoot : Path) (tree : List Path) : List Path :=
  ((tree.filter fun rel =>
      !(fileName rel == "stamp.toml") && !strContains (relString rel) "\x7b\x7b").map
    (earlyOutputPath destRoot)).filter exists_

/-- The render_template pipeline of main.rs after the manifest has been
read: validate the manifest and abort with the batched violations; under
Fail run the early literal-path conflict pre-check; collect the answers
into the context; plan every file; resolve conflicts; execute. The
destination filesystem is threaded through and returned untouched on every
abort that precedes execution. -/
def renderTemplate (render : Renderer) (ops : FsOps) (exists_ : Path → Bool)
    (config : List Question) (ans : Answers) (tree : List Path)
    (destRoot : Path) (strategy : ConflictStrategy) (fs0 : DestFS) : DestFS × Option Err :=
  let verrs := validateConfig config
  if verrs.isEmpty then
    let early := if strategy = ConflictStrategy.Fail then earlyConflicts exists_ destRoot tree else []
    if early.isEmpty then
      let _ctx := collectAnswers ans config
      match plan render destRoot tree with
      | .error e => (fs0, some e)
      | .ok actions =>
        match resolveConflicts strategy exists_ actions with
        | .error e => (fs0, some e)
        | .ok finalActions => execute render ops fs0 finalActions
    else (fs0, some (Err.conflict early))
  else (fs0, some (Err.validation verrs))

/-- Modelled from the wording of the specification, for comparison only:
the claimed destination computation that splits the path relative to the
template root into segments, renders each segment, and rejoins the rendered
segments under the destination root whose own components are not rendered. -/
def specDestination (render : Renderer) (destRoot rel : Path) : Except Err Path :=
  match renderComponents render rel with
  | .error c => .error (.pathRender c (destRoot ++ rel))
  | .ok out => .ok (destRoot ++ out)

/-- Modelled from the wording of the claim about marker stripping, for
comparison only: removal of the first occurrence of .tera exactly once. -/
def removeOnceFuel (pat : List Char) : Nat → List Char → List Char
  | 0, s => s
  | _ + 1, [] => []
  | fuel + 1, c :: rest =>
    if !pat.isEmpty && isPrefixB pat (c :: rest) then
      rest.drop (pat.length - 1)
    else
      c :: removeOnceFuel pat fuel rest

/-- Modelled from the wording of the claim about marker stripping, for
comparison only: the destination file name with the marker removed exactly
once. -/
def stripTeraOnce (name : String) : String :=
  ⟨removeOnceFuel ".tera".data name.data.length name.data⟩

/-- A renderer that leaves every string unchanged, as tera does on text
without template syntax. -/
def pureRender : Renderer := fun s => .ok s

/-- Filesystem operations that always succeed, with the given source tree
contents. -/
def okOps (src : Path → String) : FsOps where
  createDirAll := fun _ => .ok ()
  readFile := fun p => .ok (src p)
  writeFile := fun _ _ => .ok ()
  copyFile := fun _ _ => .ok ()
  sourceBytes := src

/-- An empty destination filesystem. -/
def emptyFs : DestFS := fun _ => none

/-- An existence predicate under which no destination path exists. -/
def noExists : Path → Bool := fun _ => false

/-- A trivial answer oracle. -/
def noAnswers : Answers where
  stringAns := fun _ => ""
  boolAns := fun _ => false
  selectAns := fun _ => 0
  multiSel := fun _ _ => false

/-- The bytes a successful run of one action places at its destination: the
rendering of the source contents for a template file, the source bytes
verbatim otherwise; none when content rendering fails. -/
def actionBytes (render : Renderer) (src : Path → String) (a : FileAction) : Option String :=
  if a.is_tera then (render (src a.source)).toOption else some (src a.source)

/-- The effect of one successfully executed action on the destination
filesystem, used to reason about runs in which every operation succeeds. -/
def applyOk (render : Renderer) (src : Path → String) (fs : DestFS) (a : FileAction) : DestFS :=
  match actionBytes render src a with
  | some v => fsWrite fs a.destination v
  | none => fs

/-- A renderer that maps the interpolated component of the C1 scenario to
its substituted value and leaves everything else unchanged. -/
def rootRender : Renderer :=
  fun s => if s = "\x7b\x7bp\x7d\x7d" then .ok "x" else .ok s

/-- A renderer that fails on any string containing the interpolation
delimiters and leaves everything else unchanged. -/
def failRender : Renderer :=
  fun s => if strContains s "\x7b\x7b" then .error "unknown variable" else .ok s

/-- The renderer of the C3 scenario: the interpolated file name renders to
b.txt, everything else is unchanged. -/
def cRender : Renderer :=
  fun s => if s = "\x7b\x7bx\x7d\x7d.txt" then .ok "b.txt" else .ok s

/-- The pre-existing destination files of the C3 scenario. -/
def cExists : Path → Bool :=
  fun p => p == ["dest", "a.txt"] || p == ["dest", "b.txt"]

/-- The template tree of the C3 scenario: one literal file and one file
with an interpolated name. -/
def cTree : List Path := [["a.txt"], ["\x7b\x7bx\x7d\x7d.txt"]]

/-- Filesystem operations whose writes always fail with the same
underlying error, regardless of the source and destination involved. -/
def failWriteOps : FsOps where
  createDirAll := fun _ => .ok ()
  readFile := fun _ => .ok ""
  writeFile := fun _ _ => .error "permission denied"
  copyFile := fun _ _ => .ok ()
  sourceBytes := fun _ => ""

/-- A source tree whose every file contains its own path as bytes. -/
def srcByName : Path → String := relString

/-- The select question of the C5 validation scenario: kind select with no
options and no choices, otherwise well formed. -/
def wQ : Question :=
  { id := "color", kind := .select, prompt := "Pick a color",
    default := none, options := none, choices := none }

/-- The manifest of the C9 witness: a string question and a select question
with options present. -/
def wQs : List Question :=
  [{ id := "name", kind := .string, prompt := "Name",
     default := none, options := none, choices := none },
   { id := "kind", kind := .select, prompt := "Kind",
     default := none, options := some ["a", "b"], choices := none }]

/-- The two planned actions of the C10 witness: the sources a and a.tera
both map to the destination a under the destination root d. -/
def wA : FileAction := { source := ["a"], destination := ["d", "a"], is_tera := false }

/-- Second action of the C10 witness, a template file with the same
destination as the first. -/
def wB : FileAction := { source := ["a.tera"], destination := ["d", "a"], is_tera := true }

/-- The pre-existing destination of the C6 witness. -/
def wExists : Path → Bool := fun p => p == ["d", "old.txt"]

/-- The planned actions of the C6 witness: one whose destination already
exists and one whose destination is fresh. -/
def wActs : List FileAction :=
  [{ source := ["old.txt"], destination := ["d", "old.txt"], is_tera := false },
   { source := ["new.txt"], destination := ["d", "new.txt"], is_tera := false }]

/-- The initial destination filesystem of the C6 witness. -/
def wFs : DestFS := fun p => if p = ["d", "old.txt"] then some "old bytes" else none

/-- The renderer of the C3 witness: the interpolated component renders to
f.txt, everything else is unchanged. -/
def wRender3 : Renderer := fun s => if s = "\x7b\x7by\x7d\x7d" then .ok "f.txt" else .ok s

/-- The pre-existing destination of the C3 witness. -/
def wExists3 : Path → Bool := fun p => p == ["d", "f.txt"]

/-- The template tree of the C3 witness: a single file with an
interpolated name, invisible to the early pre-check. -/
def wTree3 : List Path := [["\x7b\x7by\x7d\x7d"]]

/-- The planned action of the C3 witness. -/
def wAct3 : FileAction :=
  { source := ["\x7b\x7by\x7d\x7d"], destination := ["d", "f.txt"], is_tera := false }

/-! Helper lemmas about the embedded definitions. -/

theorem renderComponents_append_ok (render : Renderer) (xs ys out : List String)
    (hxs : ∀ c ∈ xs, render c = .ok c) (hys : renderComponents render ys = .ok out) :
    renderComponents render (xs ++ ys) = .ok (xs ++ out) := by
  induction xs with
  | nil => simpa using hys
  | cons x rest ih =>
    have hx : render x = .ok x := hxs x (List.mem_cons_self x rest)
    have ih2 := ih fun c hc => hxs c (List.mem_cons_of_mem x hc)
    simp [renderComponents, hx, ih2]

theorem renderComponents_append_err (render : Renderer) (xs ys : List String) (c : String)
    (hxs : ∀ x ∈ xs, render x = .ok x) (hys : renderComponents render ys = .error c) :
    renderComponents render (xs ++ ys) = .error c := by
  induction xs with
  | nil => simpa using hys
  | cons x rest ih =>
    have hx : render x = .ok x := hxs x (List.mem_cons_self x rest)
    have ih2 := ih fun d hd => hxs d (List.mem_cons_of_mem x hd)
    simp [renderComponents, hx, ih2]

theorem planFile_source (render : Renderer) (destRoot rel : Path) (a : FileAction)
    (h : planFile render destRoot rel = .ok a) : a.source = rel := by
  rw [planFile] at h
  cases hrc : renderComponents render (destRoot ++ rel) with
  | error c => rw [hrc] at h; cases h
  | ok out => rw [hrc] at h; injection h with h; rw [← h]

/-! Claim C1. -/

/-- Claim C1 is false on the code: the planner renders every component of
the joined output path, the destination root included, so a destination
root component carrying template syntax is substituted, while the claim
says the destination root components are not rendered. Here the root
component renders to x and the computed destination differs from the
claimed one. -/
theorem c1_counterexample :
    planFile rootRender ["\x7b\x7bp\x7d\x7d"] ["f.txt"]
      = .ok { source := ["f.txt"], destination := ["x", "f.txt"], is_tera := false } ∧
    specDestination rootRender ["\x7b\x7bp\x7d\x7d"] ["f.txt"]
      = .ok ["\x7b\x7bp\x7d\x7d", "f.txt"] ∧
    (["x", "f.txt"] : Path) ≠ ["\x7b\x7bp\x7d\x7d", "f.txt"] := by
  refine ⟨rfl, rfl, ?_⟩
  decide

/-- Claim C1 (amended): the planner renders every component of the joined
path destRoot ++ rel, the destination root included; when the root
components render to themselves the destination is the root followed by
the rendered relative segments, with the marker stripped for template
files; a failing segment aborts planning with an error naming the literal
first failing segment and the literal full unrendered joined path. -/
theorem c1_amended (render : Renderer) (destRoot rel : Path)
    (hroot : ∀ c ∈ destRoot, render c = .ok c) :
    (∀ out, renderComponents render rel = .ok out →
      planFile render destRoot rel
        = .ok { source := rel,
                destination :=
                  if isTeraName (fileName rel) then
                    setFileName (destRoot ++ out) (stripTera (fileName (destRoot ++ out)))
                  else destRoot ++ out,
                is_tera := isTeraName (fileName rel) }) ∧
    (∀ c, renderComponents render rel = .error c →
      planFile render destRoot rel = .error (.pathRender c (destRoot ++ rel))) := by
  constructor
  · intro out hout
    have h := renderComponents_append_ok render destRoot rel out hroot hout
    simp only [planFile, h]
  · intro c hc
    have h := renderComponents_append_err render destRoot rel c hroot hc
    simp only [planFile, h]

/-- Witness for c1_amended: the successful branch on d/a/b.tera with the
identity renderer, and the failing branch on a path whose file name holds
an unknown variable. -/
theorem c1_amended_witness :
    planFile pureRender ["d"] ["a", "b.tera"]
      = .ok { source := ["a", "b.tera"], destination := ["d", "a", "b"], is_tera := true } ∧
    planFile failRender ["d"] ["x", "\x7b\x7bp\x7d\x7d"]
      = .error (.pathRender "\x7b\x7bp\x7d\x7d" ["d", "x", "\x7b\x7bp\x7d\x7d"]) := by
  constructor
  · exact (c1_amended pureRender ["d"] ["a", "b.tera"]
      (fun c _ => rfl)).1 ["a", "b.tera"] rfl
  · exact (c1_amended failRender ["d"] ["x", "\x7b\x7bp\x7d\x7d"]
      (by intro c hc; simp at hc; subst hc; rfl)).2 "\x7b\x7bp\x7d\x7d" rfl

/-! Claim C2. -/

/-- Claim C2 is false on the code: marker stripping uses str::replace,
which removes every occurrence of .tera, not exactly one; on the source
file b.tera.tera the code computes destination b while an exactly-once
removal would give b.tera. -/
theorem c2_counterexample :
    planFile pureRender [] ["b.tera.tera"]
      = .ok { source := ["b.tera.tera"], destination := ["b"], is_tera := true } ∧
    stripTeraOnce "b.tera.tera" = "b.tera" ∧
    ("b" : String) ≠ "b.tera" := by
  refine ⟨rfl, rfl, ?_⟩
  decide

/-- Claim C2 (amended): a planned file is classified as a template exactly
when its source file name ends with .tera or contains .tera. as an inner
extension; for a template-marked file every occurrence of the marker
substring .tera is removed from the rendered destination file name, which
is exactly once for names containing the marker once, as in a/b.tera or
c.tera.json; an unmarked file keeps its rendered path unchanged and a
successful execution copies its source bytes verbatim to the destination. -/
theorem c2_amended (render : Renderer) (destRoot rel : Path) (a : FileAction)
    (h : planFile render destRoot rel = .ok a) :
    a.is_tera = (strEndsWith (fileName rel) ".tera" || strContains (fileName rel) ".tera.") ∧
    (∃ out, renderComponents render (destRoot ++ rel) = .ok out ∧
      a.destination =
        if a.is_tera then setFileName out (stripTera (fileName out)) else out) ∧
    (a.is_tera = false →
      ∀ (src : Path → String) (fs0 : DestFS),
        executeAction render (okOps src) fs0 a
          = .ok (fsWrite fs0 a.destination (src a.source))) := by
  rw [planFile] at h
  cases hrc : renderComponents render (destRoot ++ rel) with
  | error c => rw [hrc] at h; cases h
  | ok out =>
    rw [hrc] at h
    injection h with h
    subst h
    refine ⟨rfl, ⟨out, rfl, rfl⟩, ?_⟩
    intro hf src fs0
    simp only [executeAction, okOps] at *
    simp [hf]

/-- Witness for c2_amended on the file c.tera.json: the inner marker is
detected and stripped from the destination name, which becomes c.json. -/
theorem c2_amended_witness :
    (({ source := ["c.tera.json"], destination := ["c.json"], is_tera := true } : FileAction).is_tera
      = (strEndsWith (fileName ["c.tera.json"]) ".tera"
          || strContains (fileName ["c.tera.json"]) ".tera.")) ∧
    (∃ out, renderComponents pureRender ([] ++ ["c.tera.json"]) = .ok out ∧
      (({ source := ["c.tera.json"], destination := ["c.json"], is_tera := true } : FileAction).destination
        = if ({ source := ["c.tera.json"], destination := ["c.json"], is_tera := true } : FileAction).is_tera
          then setFileName out (stripTera (fileName out)) else out)) := by
  have h := c2_amended pureRender [] ["c.tera.json"]
    { source := ["c.tera.json"], destination := ["c.json"], is_tera := true } rfl
  exact ⟨h.1, h.2.1⟩

/-! Claim C4. -/

/-- Claim C4 is false on the code: only the exact file name stamp.toml is
skipped by the planner, so a file named stamp.json, though it matches the
manifest pattern stamp.*, still becomes an action. -/
theorem c4_counterexample :
    plan pureRender ["d"] [["stamp.json"]]
      = .ok [{ source := ["stamp.json"], destination := ["d", "stamp.json"], is_tera := false }] ∧
    strStartsWith "stamp.json" "stamp." = true ∧
    ("stamp.json" : String) ≠ "stamp.toml" := by
  refine ⟨rfl, rfl, ?_⟩
  decide

/-- Claim C4 (amended): the planner never produces an action for a file
named exactly stamp.toml, and every other file of the tree yields an
action with that file as its source whenever planning succeeds. -/
theorem c4_amended (render : Renderer) (destRoot : Path) (tree : List Path)
    (actions : List FileAction) (h : plan render destRoot tree = .ok actions) :
    (∀ a ∈ actions, fileName a.source ≠ "stamp.toml") ∧
    (∀ rel ∈ tree, fileName rel ≠ "stamp.toml" → ∃ a ∈ actions, a.source = rel) := by
  induction tree generalizing actions with
  | nil =>
    rw [plan] at h
    injection h with h
    subst h
    exact ⟨fun a ha => absurd ha (List.not_mem_nil a),
           fun rel hrel => absurd hrel (List.not_mem_nil rel)⟩
  | cons rel rest ih =>
    rw [plan] at h
    by_cases hname : fileName rel = "stamp.toml"
    · rw [if_pos hname] at h
      obtain ⟨h1, h2⟩ := ih actions h
      refine ⟨h1, ?_⟩
      intro r hr hrn
      rcases List.mem_cons.mp hr with rfl | hmem
      · exact absurd hname hrn
      · exact h2 r hmem hrn
    · rw [if_neg hname] at h
      cases hpf : planFile render destRoot rel with
      | error e => rw [hpf] at h; cases h
      | ok a =>
        rw [hpf] at h
        cases hrest : plan render destRoot rest with
        | error e => rw [hrest] at h; cases h
        | ok as =>
          rw [hrest] at h
          injection h with h
          subst h
          obtain ⟨h1, h2⟩ := ih as hrest
          have hsrc : a.source = rel := planFile_source render destRoot rel a hpf
          constructor
          · intro b hb
            rcases List.mem_cons.mp hb with rfl | hmem
            · rw [hsrc]; exact hname
            · exact h1 b hmem
          · intro r hr hrn
            rcases List.mem_cons.mp hr with rfl | hmem
            · exact ⟨a, List.mem_cons_self a as, hsrc⟩
            · obtain ⟨b, hb, hbs⟩ := h2 r hmem hrn
              exact ⟨b, List.mem_cons_of_mem a hb, hbs⟩

/-- Witness for c4_amended on a tree holding stamp.toml and main.rs: the
manifest is dropped and main.rs is planned. -/
theorem c4_amended_witness :
    fileName ["main.rs"] ≠ "stamp.toml" ∧
    (∃ a ∈ [({ source := ["main.rs"], destination := ["d", "main.rs"], is_tera := false } : FileAction)],
      a.source = ["main.rs"]) := by
  have h := c4_amended pureRender ["d"] [["stamp.toml"], ["main.rs"]]
    [{ source := ["main.rs"], destination := ["d", "main.rs"], is_tera := false }] rfl
  exact ⟨by decide, h.2 ["main.rs"] (by simp) (by decide)⟩

/-! Executor lemmas. -/

theorem execute_nil (render : Renderer) (ops : FsOps) (fs : DestFS) :
    execute render ops fs [] = (fs, none) := rfl

theorem execute_cons_ok (render : Renderer) (ops : FsOps) (fs fs2 : DestFS)
    (a : FileAction) (rest : List FileAction)
    (h : executeAction render ops fs a = .ok fs2) :
    execute render ops fs (a :: rest) = execute render ops fs2 rest := by
  rw [execute, h]

theorem execute_cons_err (render : Renderer) (ops : FsOps) (fs : DestFS)
    (a : FileAction) (rest : List FileAction) (e : Err)
    (h : executeAction render ops fs a = .error e) :
    execute render ops fs (a :: rest) = (fs, some e) := by
  rw [execute, h]

theorem executeAction_okOps (render : Renderer) (src : Path → String) (fs : DestFS)
    (a : FileAction) (v : String) (hv : actionBytes render src a = some v) :
    executeAction render (okOps src) fs a = .ok (fsWrite fs a.destination v) := by
  cases ht : a.is_tera with
  | true =>
    rw [actionBytes, ht, if_pos rfl] at hv
    cases hr : render (src a.source) with
    | error e => rw [hr] at hv; simp [Except.toOption] at hv
    | ok r =>
      rw [hr] at hv
      simp only [Except.toOption, Option.some.injEq] at hv
      subst hv
      simp [executeAction, okOps, ht, hr]
  | false =>
    rw [actionBytes, ht, if_neg (by simp)] at hv
    simp only [Option.some.injEq] at hv
    subst hv
    simp [executeAction, okOps, ht]

theorem execute_okOps (render : Renderer) (src : Path → String) (as : List FileAction)
    (h : ∀ a ∈ as, ∃ v, actionBytes render src a = some v) (fs : DestFS) :
    execute render (okOps src) fs as = (as.foldl (applyOk render src) fs, none) := by
  induction as generalizing fs with
  | nil => rfl
  | cons a rest ih =>
    obtain ⟨v, hv⟩ := h a (List.mem_cons_self a rest)
    rw [execute_cons_ok render (okOps src) fs (fsWrite fs a.destination v) a rest
      (executeAction_okOps render src fs a v hv)]
    rw [List.foldl_cons]
    have happ : applyOk render src fs a = fsWrite fs a.destination v := by
      rw [applyOk, hv]
    rw [happ]
    exact ih (fun b hb => h b (List.mem_cons_of_mem a hb)) _

theorem applyOk_apply_ne (render : Renderer) (src : Path → String) (fs : DestFS)
    (a : FileAction) (p : Path) (hp : a.destination ≠ p) :
    applyOk render src fs a p = fs p := by
  rw [applyOk]
  cases actionBytes render src a with
  | none => rfl
  | some v =>
    simp only [fsWrite]
    rw [if_neg fun hpd => hp hpd.symm]

theorem applyOk_apply_congr (render : Renderer) (src : Path → String)
    (fs1 fs2 : DestFS) (a : FileAction) (p : Path) (h : fs1 p = fs2 p) :
    applyOk render src fs1 a p = applyOk render src fs2 a p := by
  rw [applyOk, applyOk]
  cases actionBytes render src a with
  | none => exact h
  | some v =>
    simp only [fsWrite]
    split
    · rfl
    · exact h

theorem foldl_applyOk_not_written (render : Renderer) (src : Path → String)
    (as : List FileAction) (p : Path) (h : ∀ a ∈ as, a.destination ≠ p) (fs : DestFS) :
    (as.foldl (applyOk render src) fs) p = fs p := by
  induction as generalizing fs with
  | nil => rfl
  | cons a rest ih =>
    rw [List.foldl_cons]
    rw [ih (fun b hb => h b (List.mem_cons_of_mem a hb)) _]
    exact applyOk_apply_ne render src fs a p (h a (List.mem_cons_self a rest))

theorem foldl_applyOk_filter_agree (render : Renderer) (src : Path → String)
    (exists_ : Path → Bool) (as : List FileAction) :
    ∀ fs1 fs2 : DestFS, (∀ q, exists_ q = false → fs1 q = fs2 q) →
      ∀ p, exists_ p = false →
        ((as.filter fun a => !exists_ a.destination).foldl (applyOk render src) fs1) p
          = (as.foldl (applyOk render src) fs2) p := by
  induction as with
  | nil => intro fs1 fs2 hagree p hp; exact hagree p hp
  | cons a rest ih =>
    intro fs1 fs2 hagree p hp
    cases hd : exists_ a.destination with
    | false =>
      rw [List.filter_cons_of_pos (by simp [hd])]
      rw [List.foldl_cons, List.foldl_cons]
      refine ih (applyOk render src fs1 a) (applyOk render src fs2 a) ?_ p hp
      intro q hq
      exact applyOk_apply_congr render src fs1 fs2 a q (hagree q hq)
    | true =>
      rw [List.filter_cons_of_neg (by simp [hd])]
      rw [List.foldl_cons]
      refine ih fs1 (applyOk render src fs2 a) ?_ p hp
      intro q hq
      rw [hagree q hq]
      refine (applyOk_apply_ne render src fs2 a q ?_).symm
      intro hqd
      rw [hqd] at hd
      rw [hd] at hq
      cases hq

theorem execute_append_error (render : Renderer) (ops : FsOps) (pre : List FileAction)
    (bad : FileAction) (post : List FileAction) (fs1 : DestFS) (e : Err) :
    ∀ fs0 : DestFS, execute render ops fs0 pre = (fs1, none) →
      executeAction render ops fs1 bad = .error e →
      execute render ops fs0 (pre ++ bad :: post) = (fs1, some e) := by
  induction pre with
  | nil =>
    intro fs0 hpre hbad
    rw [execute_nil] at hpre
    have hfs : fs0 = fs1 := congrArg Prod.fst hpre
    subst hfs
    rw [List.nil_append]
    exact execute_cons_err render ops fs0 bad post e hbad
  | cons a rest ih =>
    intro fs0 hpre hbad
    cases ha : executeAction render ops fs0 a with
    | error e2 =>
      rw [execute_cons_err render ops fs0 a rest e2 ha] at hpre
      have : (some e2 : Option Err) = none := congrArg Prod.snd hpre
      cases this
    | ok fs2 =>
      rw [execute_cons_ok render ops fs0 fs2 a rest ha] at hpre
      rw [List.cons_append, execute_cons_ok render ops fs0 fs2 a (rest ++ bad :: post) ha]
      exact ih fs2 hpre hbad

/-! Claim C7. -/

/-- Claim C7 is false on the code in its error-identification part: the
executor propagates the underlying operation error unchanged, so two runs
failing at different source and destination pairs return the identical
error value, which therefore cannot identify the failing pair. -/
theorem c7_counterexample :
    (execute pureRender failWriteOps emptyFs
      [{ source := ["s1"], destination := ["d1"], is_tera := true }]).2
      = some (Err.fsErr "permission denied") ∧
    (execute pureRender failWriteOps emptyFs
      [{ source := ["s2"], destination := ["d2"], is_tera := true }]).2
      = some (Err.fsErr "permission denied") ∧
    ({ source := ["s1"], destination := ["d1"], is_tera := true } : FileAction)
      ≠ { source := ["s2"], destination := ["d2"], is_tera := true } := by
  refine ⟨rfl, rfl, ?_⟩
  decide

/-- Claim C7 (amended): actions execute in order; once a prefix has
executed successfully and the next action fails, the run stops with the
destination filesystem exactly as the prefix left it — previously written
files stay in place, the remaining actions are never attempted — and the
returned error is the underlying error of the failing operation, which
carries no source or destination pair. -/
theorem c7_amended (render : Renderer) (ops : FsOps) (pre : List FileAction)
    (bad : FileAction) (post : List FileAction) (fs0 fs1 : DestFS) (e : Err)
    (hpre : execute render ops fs0 pre = (fs1, none))
    (hbad : executeAction render ops fs1 bad = .error e) :
    execute render ops fs0 (pre ++ bad :: post) = (fs1, some e) :=
  execute_append_error render ops pre bad post fs1 e fs0 hpre hbad

/-- Witness for c7_amended: after one successful copy the failing write
stops the run, keeps the first written file, skips the rest, and reports
the underlying write error. -/
theorem c7_amended_witness :
    execute pureRender failWriteOps emptyFs
      ([{ source := ["a"], destination := ["da"], is_tera := false }]
        ++ { source := ["b"], destination := ["db"], is_tera := true }
          :: [{ source := ["c"], destination := ["dc"], is_tera := false }])
      = (fsWrite emptyFs ["da"] "", some (Err.fsErr "permission denied")) :=
  c7_amended pureRender failWriteOps
    [{ source := ["a"], destination := ["da"], is_tera := false }]
    { source := ["b"], destination := ["db"], is_tera := true }
    [{ source := ["c"], destination := ["dc"], is_tera := false }]
    emptyFs (fsWrite emptyFs ["da"] "") (Err.fsErr "permission denied") rfl rfl

/-! Claim C6. -/

/-- Claim C6 (confirmed): under Skip every planned action whose destination
already exists is silently dropped and the remaining actions execute
without any reported error; the final destination filesystem keeps every
pre-existing path untouched and agrees with the Overwrite run, which
executes all actions, at every path that did not pre-exist. -/
theorem c6_skip (render : Renderer) (src : Path → String) (exists_ : Path → Bool)
    (fs0 : DestFS) (as : List FileAction)
    (hren : ∀ a ∈ as, ∃ v, actionBytes render src a = some v) :
    resolveConflicts ConflictStrategy.Skip exists_ as
      = .ok (as.filter fun a => !exists_ a.destination) ∧
    resolveConflicts ConflictStrategy.Overwrite exists_ as = .ok as ∧
    (execute render (okOps src) fs0 (as.filter fun a => !exists_ a.destination)).2 = none ∧
    (∀ p, exists_ p = true →
      (execute render (okOps src) fs0 (as.filter fun a => !exists_ a.destination)).1 p
        = fs0 p) ∧
    (∀ p, exists_ p = false →
      (execute render (okOps src) fs0 (as.filter fun a => !exists_ a.destination)).1 p
        = (execute render (okOps src) fs0 as).1 p) := by
  have hrenF : ∀ a ∈ as.filter fun a => !exists_ a.destination,
      ∃ v, actionBytes render src a = some v :=
    fun a ha => hren a (List.mem_of_mem_filter ha)
  have hex1 := execute_okOps render src _ hrenF fs0
  have hex2 := execute_okOps render src as hren fs0
  refine ⟨rfl, rfl, by rw [hex1], ?_, ?_⟩
  · intro p hp
    rw [hex1]
    refine foldl_applyOk_not_written render src _ p ?_ fs0
    intro a ha hdp
    have hfa := List.of_mem_filter ha
    rw [hdp] at hfa
    simp [hp] at hfa
  · intro p hp
    rw [hex1, hex2]
    exact foldl_applyOk_filter_agree render src exists_ as fs0 fs0 (fun q _ => rfl) p hp

/-- Witness for c6_skip on a tree with one pre-existing and one fresh
destination: the pre-existing file keeps its bytes and the fresh file gets
the same bytes as under Overwrite. -/
theorem c6_skip_witness :
    resolveConflicts ConflictStrategy.Skip wExists wActs
      = .ok (wActs.filter fun a => !wExists a.destination) ∧
    (execute pureRender (okOps srcByName) wFs
      (wActs.filter fun a => !wExists a.destination)).1 ["d", "old.txt"]
      = wFs ["d", "old.txt"] ∧
    (execute pureRender (okOps srcByName) wFs
      (wActs.filter fun a => !wExists a.destination)).1 ["d", "new.txt"]
      = (execute pureRender (okOps srcByName) wFs wActs).1 ["d", "new.txt"] := by
  have hren : ∀ a ∈ wActs, ∃ v, actionBytes pureRender srcByName a = some v := by
    intro a ha
    simp only [wActs, List.mem_cons, List.not_mem_nil, or_false] at ha
    rcases ha with rfl | rfl
    · exact ⟨"old.txt", rfl⟩
    · exact ⟨"new.txt", rfl⟩
  have h := c6_skip pureRender srcByName wExists wFs wActs hren
  exact ⟨h.1, h.2.2.2.1 ["d", "old.txt"] rfl, h.2.2.2.2 ["d", "new.txt"] rfl⟩

/-! Claim C10. -/

/-- Claim C10 (confirmed): conflict detection consults only the
pre-existing destination filesystem and never compares planned actions
against each other: when no planned destination pre-exists, the Fail check
reports no conflict and the Skip filter drops nothing, even when two
actions share one destination, and executing two such actions writes both
in order, the later one determining the final content of the shared
destination. -/
theorem c10_no_pairwise (exists_ : Path → Bool) (as : List FileAction)
    (h : ∀ a ∈ as, exists_ a.destination = false) :
    resolveConflicts ConflictStrategy.Fail exists_ as = .ok as ∧
    resolveConflicts ConflictStrategy.Skip exists_ as = .ok as ∧
    (∀ (render : Renderer) (src : Path → String) (fs0 : DestFS) (a1 a2 : FileAction)
        (v1 v2 : String),
      actionBytes render src a1 = some v1 → actionBytes render src a2 = some v2 →
      execute render (okOps src) fs0 [a1, a2]
        = (fsWrite (fsWrite fs0 a1.destination v1) a2.destination v2, none) ∧
      (fsWrite (fsWrite fs0 a1.destination v1) a2.destination v2) a2.destination
        = some v2) := by
  refine ⟨?_, ?_, ?_⟩
  · have hf : (as.filter fun a => exists_ a.destination) = [] :=
      List.filter_eq_nil_iff.mpr fun a ha => by simp [h a ha]
    simp [resolveConflicts, hf]
  · have hf : (as.filter fun a => !exists_ a.destination) = as :=
      List.filter_eq_self.mpr fun a ha => by simp [h a ha]
    simp [resolveConflicts, hf]
  · intro render src fs0 a1 a2 v1 v2 h1 h2
    constructor
    · rw [execute_cons_ok render (okOps src) fs0 (fsWrite fs0 a1.destination v1) a1 [a2]
        (executeAction_okOps render src fs0 a1 v1 h1)]
      rw [execute_cons_ok render (okOps src) (fsWrite fs0 a1.destination v1)
        (fsWrite (fsWrite fs0 a1.destination v1) a2.destination v2) a2 []
        (executeAction_okOps render src (fsWrite fs0 a1.destination v1) a2 v2 h2)]
      exact execute_nil render (okOps src) _
    · simp [fsWrite]

/-- Witness for c10_no_pairwise on the sources a and a.tera both planned to
the destination d/a over an empty destination: no conflict is reported, no
action is dropped, and the later template action determines the final
content. -/
theorem c10_witness :
    resolveConflicts ConflictStrategy.Fail noExists [wA, wB] = .ok [wA, wB] ∧
    resolveConflicts ConflictStrategy.Skip noExists [wA, wB] = .ok [wA, wB] ∧
    execute pureRender (okOps srcByName) emptyFs [wA, wB]
      = (fsWrite (fsWrite emptyFs wA.destination "a") wB.destination "a.tera", none) ∧
    (fsWrite (fsWrite emptyFs wA.destination "a") wB.destination "a.tera") wB.destination
      = some "a.tera" := by
  have h := c10_no_pairwise noExists [wA, wB] fun a _ => rfl
  have h3 := h.2.2 pureRender srcByName emptyFs wA wB "a" "a.tera" rfl rfl
  exact ⟨h.1, h.2.1, h3.1, h3.2⟩

/-! Validation lemmas. -/

theorem validateConfig_append (qs1 qs2 : List Question) :
    validateConfig (qs1 ++ qs2) = validateConfig qs1 ++ validateConfig qs2 := by
  induction qs1 with
  | nil => rfl
  | cons q rest ih => simp [validateConfig, ih]

theorem validateQuestion_eq_nil_of_mem (qs : List Question) (h : validateConfig qs = [])
    (q : Question) (hq : q ∈ qs) : validateQuestion q = [] := by
  induction qs with
  | nil => cases hq
  | cons p rest ih =>
    rw [validateConfig] at h
    have h2 := List.append_eq_nil.mp h
    rcases List.mem_cons.mp hq with rfl | hmem
    · exact h2.1
    · exact ih h2.2 hmem

theorem valid_select_options (q : Question) (hk : q.kind = QuestionType.select)
    (h : validateQuestion q = []) : ∃ opts, q.options = some opts := by
  cases ho : q.options with
  | some opts => exact ⟨opts, rfl⟩
  | none => simp [validateQuestion, hk, ho] at h

theorem valid_multi_choices (q : Question) (hk : q.kind = QuestionType.multiSelect)
    (h : validateQuestion q = []) : ∃ cs, q.choices = some cs := by
  cases hc : q.choices with
  | some cs => exact ⟨cs, rfl⟩
  | none => simp [validateQuestion, hk, hc] at h

theorem mem_collectAnswers (ans : Answers) (qs : List Question) (q : Question)
    (hq : q ∈ qs) (x : String × Value) (hx : x ∈ answerQuestion ans q) :
    x ∈ collectAnswers ans qs := by
  induction qs with
  | nil => cases hq
  | cons p rest ih =>
    rw [collectAnswers]
    rcases List.mem_cons.mp hq with rfl | hmem
    · exact List.mem_append_left _ hx
    · exact List.mem_append_right _ (ih hmem)

/-! Claim C5. -/

/-- Claim C5 (confirmed): manifest validation accumulates the violations
of every question in order without short-circuiting; a manifest whose only
defect is a select question lacking options (and without choices) yields
exactly that single validation error; and when validation fails the whole
pipeline aborts at once with the batched messages, before any rendering,
conflict checking or write, leaving the destination filesystem untouched. -/
theorem c5_validation (pre post : List Question) (q : Question)
    (hk : q.kind = QuestionType.select) (ho : q.options = none) (hc : q.choices = none)
    (hpre : ∀ p ∈ pre, validateQuestion p = [])
    (hpost : ∀ p ∈ post, validateQuestion p = []) :
    (∀ qs1 qs2 : List Question,
      validateConfig (qs1 ++ qs2) = validateConfig qs1 ++ validateConfig qs2) ∧
    validateConfig (pre ++ q :: post) = [selectMissingErr q.id] ∧
    (∀ (render : Renderer) (ops : FsOps) (exists_ : Path → Bool) (ans : Answers)
        (tree : List Path) (destRoot : Path) (strategy : ConflictStrategy) (fs0 : DestFS),
      renderTemplate render ops exists_ (pre ++ q :: post) ans tree destRoot strategy fs0
        = (fs0, some (Err.validation [selectMissingErr q.id]))) := by
  have hflat : ∀ qs : List Question,
      (∀ p ∈ qs, validateQuestion p = []) → validateConfig qs = [] := by
    intro qs
    induction qs with
    | nil => intro _; rfl
    | cons p rest ih =>
      intro hqs
      rw [validateConfig, hqs p (List.mem_cons_self p rest), List.nil_append]
      exact ih fun r hr => hqs r (List.mem_cons_of_mem p hr)
  have hvq : validateQuestion q = [selectMissingErr q.id] := by
    simp [validateQuestion, hk, ho, hc]
  have hmain : validateConfig (pre ++ q :: post) = [selectMissingErr q.id] := by
    rw [validateConfig_append, hflat pre hpre, List.nil_append, validateConfig, hvq,
      hflat post hpost, List.append_nil]
  refine ⟨validateConfig_append, hmain, ?_⟩
  intro render ops exists_ ans tree destRoot strategy fs0
  simp [renderTemplate, hmain]

/-- Witness for c5_validation on a one-question manifest holding only a
select question without options: exactly one error, and the pipeline
aborts with it leaving the destination untouched. -/
theorem c5_validation_witness :
    validateConfig ([] ++ wQ :: []) = [selectMissingErr wQ.id] ∧
    renderTemplate pureRender (okOps srcByName) noExists ([] ++ wQ :: []) noAnswers
      [["a.txt"]] ["d"] ConflictStrategy.Fail emptyFs
      = (emptyFs, some (Err.validation [selectMissingErr wQ.id])) := by
  have h := c5_validation [] [] wQ rfl rfl rfl
    (fun p hp => absurd hp (List.not_mem_nil p))
    (fun p hp => absurd hp (List.not_mem_nil p))
  exact ⟨h.2.1, h.2.2 pureRender (okOps srcByName) noExists noAnswers
    [["a.txt"]] ["d"] ConflictStrategy.Fail emptyFs⟩

/-! Claim C9. -/

/-- Claim C9 (confirmed): for a manifest that passes validation every
select question has its options and every multi-select question has its
choices, so the guarded branch of the prompt loop runs for every question:
each question contributes at least one context insertion — the silent
fall-through that would skip a question is unreachable — and a binding for
every question id appears in the collected context. -/
theorem c9_bindings (ans : Answers) (qs : List Question) (h : validateConfig qs = []) :
    ∀ q ∈ qs, answerQuestion ans q ≠ [] ∧ ∃ v, (q.id, v) ∈ collectAnswers ans qs := by
  intro q hq
  have hvq := validateQuestion_eq_nil_of_mem qs h q hq
  cases hk : q.kind with
  | string =>
    refine ⟨by simp [answerQuestion, hk], Value.str (ans.stringAns q.id), ?_⟩
    exact mem_collectAnswers ans qs q hq _ (by simp [answerQuestion, hk])
  | bool =>
    refine ⟨by simp [answerQuestion, hk], Value.boolean (ans.boolAns q.id), ?_⟩
    exact mem_collectAnswers ans qs q hq _ (by simp [answerQuestion, hk])
  | select =>
    obtain ⟨opts, hopts⟩ := valid_select_options q hk hvq
    refine ⟨by simp [answerQuestion, hk, hopts],
      Value.str (opts.getD (ans.selectAns q.id) ""), ?_⟩
    exact mem_collectAnswers ans qs q hq _ (by simp [answerQuestion, hk, hopts])
  | multiSelect =>
    obtain ⟨cs, hcs⟩ := valid_multi_choices q hk hvq
    refine ⟨by simp [answerQuestion, hk, hcs],
      Value.strList ((cs.enum.filter fun ic => ans.multiSel q.id ic.1).map fun ic => (ic.2).id),
      ?_⟩
    exact mem_collectAnswers ans qs q hq _ (by simp [answerQuestion, hk, hcs])

/-- Witness for c9_bindings on a valid two-question manifest: the select
question with options present inserts a binding for its id. -/
theorem c9_bindings_witness :
    answerQuestion noAnswers
      { id := "kind", kind := .select, prompt := "Kind",
        default := none, options := some ["a", "b"], choices := none } ≠ [] ∧
    ∃ v, ("kind", v) ∈ collectAnswers noAnswers wQs := by
  have h := c9_bindings noAnswers wQs rfl
  exact h _ (by rw [wQs]; exact List.mem_cons_of_mem _ (List.mem_cons_self _ _))

/-! Claim C8. -/

/-- Claim C8 (confirmed): planning is deterministic — the planner is a
pure function of the template tree, the renderer with its fixed context
and the destination root, and conflict resolution depends on the
destination filesystem only through its existence predicate — so two runs
over equal inputs produce the same ordered action list and the same
resolution of it. -/
theorem c8_deterministic (render : Renderer) (destRoot : Path) (tree1 tree2 : List Path)
    (strategy : ConflictStrategy) (exists1 exists2 : Path → Bool)
    (htree : tree1 = tree2) (hfs : ∀ p, exists1 p = exists2 p) :
    plan render destRoot tree1 = plan render destRoot tree2 ∧
    ∀ as, resolveConflicts strategy exists1 as = resolveConflicts strategy exists2 as := by
  subst htree
  have hx : exists1 = exists2 := funext hfs
  subst hx
  exact ⟨rfl, fun _ => rfl⟩

/-- Witness for c8_deterministic at a concrete tree and existence
predicate. -/
theorem c8_deterministic_witness :
    plan pureRender ["d"] [["a.txt"]] = plan pureRender ["d"] [["a.txt"]] ∧
    resolveConflicts ConflictStrategy.Fail noExists [wA]
      = resolveConflicts ConflictStrategy.Fail noExists [wA] := by
  have h := c8_deterministic pureRender ["d"] [["a.txt"]] [["a.txt"]] ConflictStrategy.Fail
    noExists noExists rfl fun _ => rfl
  exact ⟨h.1, h.2 [wA]⟩

/-! Claim C3. -/

/-- Claim C3 is false on the code in its complete-reporting part: the
early pre-check compares literal non-interpolated paths against the
destination and aborts before planning, so a run whose tree also holds an
interpolated file conflicting after rendering reports only the literal
conflict; here the conflict list of the aborting run omits the conflicting
final planned destination dest/b.txt. -/
theorem c3_counterexample :
    renderTemplate cRender (okOps srcByName) cExists [] noAnswers cTree ["dest"]
      ConflictStrategy.Fail emptyFs
      = (emptyFs, some (Err.conflict [["dest", "a.txt"]])) ∧
    plan cRender ["dest"] cTree
      = .ok [{ source := ["a.txt"], destination := ["dest", "a.txt"], is_tera := false },
             { source := ["\x7b\x7bx\x7d\x7d.txt"], destination := ["dest", "b.txt"],
               is_tera := false }] ∧
    ((([{ source := ["a.txt"], destination := ["dest", "a.txt"], is_tera := false },
        { source := ["\x7b\x7bx\x7d\x7d.txt"], destination := ["dest", "b.txt"],
          is_tera := false }] : List FileAction).filter
        fun a => cExists a.destination).map fun a => a.destination)
      = [["dest", "a.txt"], ["dest", "b.txt"]] ∧
    ([["dest", "a.txt"]] : List Path) ≠ [["dest", "a.txt"], ["dest", "b.txt"]] := by
  refine ⟨rfl, rfl, rfl, ?_⟩
  decide

/-- Claim C3 (amended): under Fail, whenever any planned action's final
destination already exists the run aborts with a conflict error and zero
bytes are written to the destination tree; the reported list is the one of
the check that fired: the early pre-check against literal non-interpolated
paths may fire first and list only those conflicts, and when it finds
nothing the final authoritative check fires and lists every conflicting
final planned destination. -/
theorem c3_amended (render : Renderer) (ops : FsOps) (exists_ : Path → Bool)
    (config : List Question) (ans : Answers) (tree : List Path) (destRoot : Path)
    (fs0 : DestFS) (actions : List FileAction)
    (hval : validateConfig config = [])
    (hplan : plan render destRoot tree = .ok actions)
    (hconf : ∃ a ∈ actions, exists_ a.destination = true) :
    ∃ L, renderTemplate render ops exists_ config ans tree destRoot ConflictStrategy.Fail fs0
        = (fs0, some (Err.conflict L)) ∧
      L ≠ [] ∧
      (earlyConflicts exists_ destRoot tree = [] →
        L = (actions.filter fun a => exists_ a.destination).map fun a => a.destination) := by
  obtain ⟨a, ha, hex⟩ := hconf
  have hmem : a ∈ actions.filter fun a => exists_ a.destination :=
    List.mem_filter.mpr ⟨ha, hex⟩
  have hmapmem : a.destination
      ∈ (actions.filter fun a => exists_ a.destination).map fun a => a.destination :=
    List.mem_map_of_mem _ hmem
  have hne : ((actions.filter fun a => exists_ a.destination).map fun a => a.destination) ≠ [] :=
    List.ne_nil_of_mem hmapmem
  cases hearly : earlyConflicts exists_ destRoot tree with
  | cons c cs =>
    refine ⟨c :: cs, ?_, by simp, fun he => absurd he (by simp)⟩
    simp [renderTemplate, hval, hearly]
  | nil =>
    cases hc : (actions.filter fun a => exists_ a.destination).map fun a => a.destination with
    | nil => exact absurd hc hne
    | cons x xs =>
      refine ⟨x :: xs, ?_, by simp, fun _ => rfl⟩
      simp [renderTemplate, hval, hearly, hplan, resolveConflicts, hc]

/-- Witness for c3_amended on a tree whose single file has an interpolated
name: the early pre-check sees nothing, the final check fires and lists
the conflicting rendered destination, and nothing is written. -/
theorem c3_amended_witness :
    ∃ L, renderTemplate wRender3 (okOps srcByName) wExists3 [] noAnswers wTree3 ["d"]
        ConflictStrategy.Fail emptyFs = (emptyFs, some (Err.conflict L)) ∧
      L ≠ [] ∧
      (earlyConflicts wExists3 ["d"] wTree3 = [] →
        L = ([wAct3].filter fun a => wExists3 a.destination).map fun a => a.destination) :=
  c3_amended wRender3 (okOps srcByName) wExists3 [] noAnswers wTree3 ["d"] emptyFs [wAct3]
    rfl rfl ⟨wAct3, List.mem_cons_self _ _, rfl⟩

end Stamp
